import Mathlib

/-
Verification of the PCIe identifier-database loader / name resolvers /
value normalizers (src/collector/pcie_linux.go) and of the two systemd
service-state collector variants (src/unnamed/part_000 and
src/collector/systemdservices_linux.go).

Go strings are modelled as lists of characters (`Str`); all inputs of
interest are ASCII, so byte indexing coincides with character indexing.
Go maps are modelled as functions into `Option`; the two-level maps
`pciDevices` and `pciSubsystems` are modelled with pair keys, which is
observation-equivalent because every reader of those maps treats an
outer-level miss and an inner-level miss identically.
-/

/-- Go strings, modelled as lists of characters. -/
abbrev Str : Type := List Char

/-- Conversion from a Lean string literal to the `Str` model. -/
def strToL (s : String) : Str := s.data

/-- The whitespace set of Go `unicode.IsSpace` restricted to Latin-1
(space, tab, newline, vertical tab, form feed, carriage return, NEL,
NBSP); the identifiers and attribute values at issue are ASCII. -/
def isGoSpace (c : Char) : Bool :=
  c == ' ' || c == '\t' || c == '\n' || c == Char.ofNat 11 ||
  c == Char.ofNat 12 || c == '\r' || c == Char.ofNat 133 || c == Char.ofNat 160

/-- Go `strings.TrimSpace`: drop whitespace from both ends. -/
def trimSpace (s : Str) : Str :=
  ((s.dropWhile isGoSpace).reverse.dropWhile isGoSpace).reverse

/-- Go `strings.HasPrefix s p`. -/
def hasPref : Str → Str → Bool
  | _, [] => true
  | [], _ :: _ => false
  | a :: s, b :: p => a == b && hasPref s p

/-- Go `strings.TrimPrefix s p`: remove one leading occurrence of `p`
if present, otherwise return `s` unchanged. -/
def trimPref (s p : Str) : Str :=
  if hasPref s p then s.drop p.length else s

/-- Go `strings.TrimSuffix s suf`. -/
def trimSuffixStr (s suf : Str) : Str :=
  if hasPref s.reverse suf.reverse then s.take (s.length - suf.length) else s

/-- Split at the first occurrence of the (non-empty) separator:
`some (before, after)` or `none` when the separator does not occur. -/
def splitFirst : Str → Str → Option (Str × Str)
  | [], _ => none
  | c :: rest, sep =>
      if hasPref (c :: rest) sep then some ([], (c :: rest).drop sep.length)
      else
        match splitFirst rest sep with
        | some (pre, post) => some (c :: pre, post)
        | none => none

/-- Go `strings.SplitN s sep 2` for a non-empty separator: one or two parts. -/
def splitN2 (s sep : Str) : List Str :=
  match splitFirst s sep with
  | some (pre, post) => [pre, post]
  | none => [s]

/-- ASCII lower-casing of one character (the inputs at issue are ASCII;
Go `strings.ToLower` restricted to ASCII). -/
def goToLower (c : Char) : Char :=
  if 'A' ≤ c ∧ c ≤ 'Z' then Char.ofNat (c.toNat + 32) else c

/-- Go `strings.ToLower` on ASCII text. -/
def toLowerStr (s : Str) : Str := s.map goToLower

/-- Decimal digit test. -/
def isDigitC (c : Char) : Bool := '0' ≤ c && c ≤ '9'

/-- Hexadecimal digit test. -/
def isHexDigitC (c : Char) : Bool :=
  isDigitC c || ('a' ≤ c && c ≤ 'f') || ('A' ≤ c && c ≤ 'F')

/-- Numeric value of a hexadecimal digit (0 for non-digits; callers
only apply it to hexadecimal digits). -/
def hexDigitVal (c : Char) : Nat :=
  if isDigitC c then c.toNat - 48
  else if 'a' ≤ c ∧ c ≤ 'f' then c.toNat - 87
  else if 'A' ≤ c ∧ c ≤ 'F' then c.toNat - 55
  else 0

/-- Value of a decimal digit string. -/
def digitsVal (ds : Str) : Nat :=
  ds.foldl (fun a c => a * 10 + (c.toNat - 48)) 0

/-- Value of a hexadecimal digit string. -/
def hexDigitsVal (ds : Str) : Nat :=
  ds.foldl (fun a c => a * 16 + hexDigitVal c) 0

/-- The result of Go `strconv.ParseFloat`: a finite value (modelled by
its exact rational value; rounding to the nearest binary64 value is not
modelled and is the identity on the small integer values the claims
evaluate), an infinity, or NaN. -/
inductive GoFloat where
  | finite (q : ℚ)
  | posInf
  | negInf
  | nan
deriving DecidableEq

/-- Exponent part of a Go float literal (`sign? digits+`), which must
consume the whole remaining input. -/
def parseExpPart (s : Str) : Option ℤ :=
  let su : (ℤ × Str) :=
    match s with
    | '+' :: r => (1, r)
    | '-' :: r => (-1, r)
    | _ => (1, s)
  let ds := su.2.takeWhile isDigitC
  if ds = [] ∨ su.2.dropWhile isDigitC ≠ [] then none
  else some (su.1 * (digitsVal ds : ℤ))

/-- The rational `(intVal + fracVal / base ^ fracLen) * expBase ^ e`,
assembled from integers with `mkRat` (the irreducible ℚ field
operations are avoided so that concrete runs reduce). -/
def literalValue (base : ℕ) (intVal fracVal fracLen : ℕ) (expBase : ℕ) (e : ℤ) : ℚ :=
  let n : ℤ := (intVal * base ^ fracLen + fracVal : ℕ)
  let d : ℕ := base ^ fracLen
  if 0 ≤ e then mkRat (n * (expBase : ℤ) ^ e.toNat) d
  else mkRat n (d * expBase ^ (-e).toNat)

/-- Decimal mantissa with optional fraction and optional `e`/`E`
exponent, per the Go floating-point literal syntax accepted by
`strconv.ParseFloat` (digit-separating underscores are not modelled;
no claim exercises them). -/
def parseDecMant (s : Str) : Option ℚ :=
  let ip := s.takeWhile isDigitC
  let s1 := s.dropWhile isDigitC
  let fps : (Str × Str) :=
    match s1 with
    | '.' :: r => (r.takeWhile isDigitC, r.dropWhile isDigitC)
    | _ => ([], s1)
  if ip = [] ∧ fps.1 = [] then none
  else
    match fps.2 with
    | [] => some (literalValue 10 (digitsVal ip) (digitsVal fps.1) fps.1.length 10 0)
    | c :: r =>
        if c = 'e' ∨ c = 'E' then
          match parseExpPart r with
          | some e => some (literalValue 10 (digitsVal ip) (digitsVal fps.1) fps.1.length 10 e)
          | none => none
        else none

/-- Hexadecimal mantissa (after the `0x`/`0X` marker) with mandatory
`p`/`P` binary exponent, per the Go hexadecimal float syntax. -/
def parseHexMant (s : Str) : Option ℚ :=
  let ip := s.takeWhile isHexDigitC
  let s1 := s.dropWhile isHexDigitC
  let fps : (Str × Str) :=
    match s1 with
    | '.' :: r => (r.takeWhile isHexDigitC, r.dropWhile isHexDigitC)
    | _ => ([], s1)
  if ip = [] ∧ fps.1 = [] then none
  else
    match fps.2 with
    | c :: r =>
        if c = 'p' ∨ c = 'P' then
          match parseExpPart r with
          | some e => some (literalValue 16 (hexDigitsVal ip) (hexDigitsVal fps.1) fps.1.length 2 e)
          | none => none
        else none
    | [] => none

/-- Numeric (non-special) branch of `strconv.ParseFloat`: optional
sign, then a decimal or hexadecimal mantissa. -/
def parseNumericQ (s : Str) : Option ℚ :=
  let su : (ℚ × Str) :=
    match s with
    | '+' :: r => (1, r)
    | '-' :: r => (-1, r)
    | _ => (1, s)
  let body :=
    if hasPref su.2 (strToL "0x") ∨ hasPref su.2 (strToL "0X") then
      parseHexMant (su.2.drop 2)
    else parseDecMant su.2
  match body with
  | some q => some (if su.1 < 0 then -q else q)
  | none => none

/-- The special values recognized by `strconv.ParseFloat`: optionally
signed `inf`/`infinity` and unsigned `nan`, case-insensitively, each
consuming the whole input. -/
def parseSpecialF (s : Str) : Option GoFloat :=
  let l := toLowerStr s
  if l = strToL "inf" ∨ l = strToL "infinity" ∨
     l = strToL "+inf" ∨ l = strToL "+infinity" then some GoFloat.posInf
  else if l = strToL "-inf" ∨ l = strToL "-infinity" then some GoFloat.negInf
  else if l = strToL "nan" then some GoFloat.nan
  else none

/-- Smallest magnitude that rounds up past the largest finite binary64
value, namely `2 ^ 1024 - 2 ^ 970` (written as its decimal literal so
that concrete runs reduce without deep exponent recursion): values at
or above it make `strconv.ParseFloat` report a range error, which
every caller in this code treats as failure. -/
def f64OverflowBound : ℚ :=
  mkRat 179769313486231580793728971405303415079934132710037826936173778980444968292764750946649017977587207096330286416692887910946555547851940402630657488671505820681908902000708383676273854845817711531764475730270069855571366959622842914819860834936475292719074168444365510704342711559699508093042880177904174497792 1

/-- Largest magnitude that rounds to zero in binary64, namely
`1 / 2 ^ 1075` (denominator written as its decimal literal): nonzero
values at or below it make `strconv.ParseFloat` report an underflow
range error, likewise treated as failure by the callers. -/
def f64UnderflowBound : ℚ :=
  mkRat 1 404804506614621236704990693437834614099113299528284236713802716054860679135990693783920767402874248990374155728633623822779617474771586953734026799881477019843034848553132722728933815484186432682479535356945490137124014966849385397236206711298319112681620113024717539104666829230461005064372655017292012526615415482186989568

/-- Go `strconv.ParseFloat(s, 64)`, as used by the collectors: `none`
models a non-nil error (syntax or range error); a finite success is
modelled by the literal's exact rational value. -/
def goParseFloat (s : Str) : Option GoFloat :=
  match parseSpecialF s with
  | some g => some g
  | none =>
      match parseNumericQ s with
      | some q =>
          let a : ℚ := if q < 0 then -q else q
          if f64OverflowBound ≤ a then none
          else if q ≠ 0 ∧ a ≤ f64UnderflowBound then none
          else some (GoFloat.finite q)
      | none => none

/-- The five pci.ids lookup tables (`pciVendors`, `pciDevices`,
`pciSubsystems`, `pciClasses`, `pciSubclasses` in
src/collector/pcie_linux.go). The nested Go maps
`map[string]map[string]string` are modelled with pair keys; their
readers treat outer and inner misses identically, and insertion
allocates the inner map on demand, so the flattening is
observation-equivalent. -/
structure PCITables where
  pciVendors : Str → Option Str
  pciDevices : Str × Str → Option Str
  pciSubsystems : Str × Str → Option Str
  pciClasses : Str → Option Str
  pciSubclasses : Str → Option Str

/-- The initial (empty) state of the five package-level tables. -/
def emptyTables : PCITables :=
  ⟨fun _ => none, fun _ => none, fun _ => none, fun _ => none, fun _ => none⟩

/-- Point update of a function-modelled map. -/
def updFn {K : Type} [DecidableEq K] (f : K → Option Str) (k : K) (v : Str) :
    K → Option Str :=
  fun q => if q = k then some v else f q

/-- The four scanner-local context variables of `loadPCIIds`
(`currentVendor`, `currentDevice`, `currentBaseClass`,
`currentSubclass`), each initialized to the empty string. -/
structure LoaderCtx where
  currentVendor : Str
  currentDevice : Str
  currentBaseClass : Str
  currentSubclass : Str
deriving DecidableEq

/-- The initial loader context (all four variables empty). -/
def initCtx : LoaderCtx := ⟨[], [], [], []⟩

/-- One iteration of the scanner loop of `loadPCIIds`
(src/collector/pcie_linux.go lines 288-367). Each Go `if` block ends in
`continue`, so the successive blocks form an if/else-if chain; the
chain order is kept exactly, including the device-line block (lines
339-351) and the subsystem block (lines 353-366), which repeat the
conditions of earlier blocks. -/
def processLine (ct : LoaderCtx × PCITables) (line : Str) : LoaderCtx × PCITables :=
  let c := ct.1
  let t := ct.2
  if line = [] ∨ hasPref line (strToL "#") then ct
  else if hasPref line (strToL "C") then
    match splitN2 line (strToL "  ") with
    | [p0, p1] =>
        let classID := trimSpace (p0.drop 1)
        let className := trimSpace p1
        ({ c with currentBaseClass := classID, currentSubclass := [] },
         { t with pciClasses := updFn t.pciClasses classID className })
    | _ => ct
  else if hasPref line (strToL "\t") ∧ ¬ hasPref line (strToL "\t\t") then
    match splitN2 (trimPref line (strToL "\t")) (strToL "  ") with
    | [p0, p1] =>
        if c.currentBaseClass ≠ [] then
          let fullClassID := c.currentBaseClass ++ trimSpace p0
          ({ c with currentSubclass := fullClassID },
           { t with pciSubclasses := updFn t.pciSubclasses fullClassID (trimSpace p1) })
        else ct
    | _ => ct
  else if hasPref line (strToL "\t\t") ∧ ¬ hasPref line (strToL "\t\t\t") then ct
  else if ¬ hasPref line (strToL "\t") ∧ ¬ hasPref line (strToL "C") then
    match splitN2 line (strToL "  ") with
    | [p0, p1] =>
        let v := trimSpace p0
        ({ c with currentVendor := v, currentDevice := [] },
         { t with pciVendors := updFn t.pciVendors v (trimSpace p1) })
    | _ => ct
  else if hasPref line (strToL "\t") ∧ ¬ hasPref line (strToL "\t\t") then
    match splitN2 (trimPref line (strToL "\t")) (strToL "  ") with
    | [p0, p1] =>
        if c.currentVendor ≠ [] then
          let d := trimSpace p0
          ({ c with currentDevice := d },
           { t with pciDevices := updFn t.pciDevices (c.currentVendor, d) (trimSpace p1) })
        else ct
    | _ => ct
  else if hasPref line (strToL "\t\t") then
    match splitN2 (trimPref line (strToL "\t\t")) (strToL "  ") with
    | [p0, p1] =>
        if c.currentVendor ≠ [] ∧ c.currentDevice ≠ [] then
          let key := c.currentVendor ++ strToL ":" ++ c.currentDevice
          (c,
           { t with pciSubsystems := updFn t.pciSubsystems (key, trimSpace p0) (trimSpace p1) })
        else ct
    | _ => ct
  else ct

/-- `loadPCIIds` run over the lines of an already-opened database file:
fold the scanner loop from a fresh context over the given tables. -/
def loadPCIIds (t : PCITables) (lines : List Str) : PCITables :=
  (lines.foldl processLine (initCtx, t)).2

/-- `getPCIVendorName` (src/collector/pcie_linux.go lines 370-379). -/
def getPCIVendorName (t : PCITables) (vendorID : Str) : Str :=
  let v := toLowerStr (trimPref vendorID (strToL "0x"))
  match t.pciVendors v with
  | some name => name
  | none => v

/-- `getPCIDeviceName` (lines 381-394). -/
def getPCIDeviceName (t : PCITables) (vendorID deviceID : Str) : Str :=
  let v := toLowerStr (trimPref vendorID (strToL "0x"))
  let d := toLowerStr (trimPref deviceID (strToL "0x"))
  match t.pciDevices (v, d) with
  | some name => name
  | none => d

/-- `getPCISubsystemName` (lines 396-412): all four ids are stripped of
a `0x` prefix (with no lower-casing) before the composite-key lookup. -/
def getPCISubsystemName (t : PCITables) (vendorID deviceID subsysVendorID subsysDeviceID : Str) : Str :=
  let v := trimPref vendorID (strToL "0x")
  let d := trimPref deviceID (strToL "0x")
  let sv := trimPref subsysVendorID (strToL "0x")
  let sd := trimPref subsysDeviceID (strToL "0x")
  let key := v ++ strToL ":" ++ d
  let subsysKey := sv ++ strToL ":" ++ sd
  match t.pciSubsystems (key, subsysKey) with
  | some name => name
  | none => sd

/-- `getPCIClassName` (lines 414-437): the subclass lookup uses the
whole normalized id whenever it has at least four characters. -/
def getPCIClassName (t : PCITables) (classID : Str) : Str :=
  let c := toLowerStr (trimPref classID (strToL "0x"))
  match (if 4 ≤ c.length then t.pciSubclasses c else none) with
  | some name => name
  | none =>
      match (if 2 ≤ c.length then t.pciClasses (c.take 2) else none) with
      | some name => name
      | none => strToL "Unknown class (" ++ c ++ strToL ")"

/-- `parseSpeed` (lines 440-448). -/
def parseSpeed (speedStr : Str) : Option GoFloat :=
  goParseFloat (trimSpace (trimSuffixStr (trimSuffixStr speedStr (strToL " GT/s PCIe")) (strToL " GT/s")))

/-- `parseWidth` (lines 451-457). -/
def parseWidth (widthStr : Str) : Option GoFloat :=
  goParseFloat (trimSpace (trimPref widthStr (strToL "x")))

/-- `parsePowerState` (lines 460-484): trim, try `strconv.ParseFloat`,
then match the lower-cased token against the power-state switch. -/
def parsePowerState (powerStateStr : Str) : Option GoFloat :=
  let s := trimSpace powerStateStr
  match goParseFloat s with
  | some v => some v
  | none =>
      let l := toLowerStr s
      if l = strToL "d0" ∨ l = strToL "0" then some (GoFloat.finite 0)
      else if l = strToL "d1" ∨ l = strToL "1" then some (GoFloat.finite 1)
      else if l = strToL "d2" ∨ l = strToL "2" then some (GoFloat.finite 2)
      else if l = strToL "d3hot" ∨ l = strToL "3" then some (GoFloat.finite 3)
      else if l = strToL "d3cold" ∨ l = strToL "4" then some (GoFloat.finite 4)
      else none

/-- `readFileContent` (src/collector/pcie_linux.go lines 261-267): a
missing or unreadable file yields the sentinel "unknown", a readable
file yields its contents with surrounding whitespace trimmed. The file
system content is modelled as `Option Str`. -/
def readFileContent (content : Option Str) : Str :=
  match content with
  | none => strToL "unknown"
  | some c => trimSpace c

/-- The attribute files of one device directory under
/sys/bus/pci/devices (`classAttr` models the file named "class", a
reserved word). `none` models a missing or unreadable file. -/
structure DeviceFiles where
  vendor : Option Str
  device : Option Str
  subsystem_vendor : Option Str
  subsystem_device : Option Str
  classAttr : Option Str
  revision : Option Str
  current_link_speed : Option Str
  current_link_width : Option Str
  max_link_speed : Option Str
  max_link_width : Option Str
  power_state : Option Str
  d3cold_allowed : Option Str
deriving DecidableEq

/-- One observation sent to the metric channel by
`collectDeviceMetrics`: the static info metric (value 1, with its
twelve label values) or one of the six numeric slot metrics, each
labelled with the slot (device) id. -/
inductive Metric where
  | info (labels : List Str)
  | currentSpeed (slot : Str) (v : GoFloat)
  | currentWidth (slot : Str) (v : GoFloat)
  | maxSpeed (slot : Str) (v : GoFloat)
  | maxWidth (slot : Str) (v : GoFloat)
  | powerState (slot : Str) (v : GoFloat)
  | d3coldAllowed (slot : Str) (v : GoFloat)
deriving DecidableEq

/-- One numeric-metric block of `collectDeviceMetrics`: emit the parsed
value unless the raw string is the sentinel "unknown" or the normalizer
fails (each of the six blocks at lines 174-256 has this shape). -/
def emitNum (raw : Str) (p : Str → Option GoFloat) (mk : GoFloat → Metric) : List Metric :=
  if raw ≠ strToL "unknown" then
    match p raw with
    | some v => [mk v]
    | none => []
  else []

/-- The twelve label values of the info metric (lines 152-165). -/
def infoLabels (t : PCITables) (deviceID : Str) (d : DeviceFiles) : List Str :=
  let vendorID := readFileContent d.vendor
  let devID := readFileContent d.device
  let subsysVendorID := readFileContent d.subsystem_vendor
  let subsysDeviceID := readFileContent d.subsystem_device
  let classID := readFileContent d.classAttr
  [deviceID,
   vendorID,
   getPCIVendorName t vendorID,
   devID,
   getPCIDeviceName t vendorID devID,
   subsysVendorID,
   getPCIVendorName t subsysVendorID,
   subsysDeviceID,
   getPCISubsystemName t vendorID devID subsysVendorID subsysDeviceID,
   classID,
   getPCIClassName t classID,
   readFileContent d.revision]

/-- `collectDeviceMetrics` (lines 133-259) as the list of observations
emitted for one device: the info metric unconditionally, then the six
conditional numeric metrics in source order. -/
def collectDeviceMetrics (t : PCITables) (deviceID : Str) (d : DeviceFiles) : List Metric :=
  [Metric.info (infoLabels t deviceID d)]
  ++ emitNum (readFileContent d.current_link_speed) parseSpeed (Metric.currentSpeed deviceID)
  ++ emitNum (readFileContent d.current_link_width) parseWidth (Metric.currentWidth deviceID)
  ++ emitNum (readFileContent d.max_link_speed) parseSpeed (Metric.maxSpeed deviceID)
  ++ emitNum (readFileContent d.max_link_width) parseWidth (Metric.maxWidth deviceID)
  ++ emitNum (readFileContent d.power_state) parsePowerState (Metric.powerState deviceID)
  ++ emitNum (readFileContent d.d3cold_allowed) goParseFloat (Metric.d3coldAllowed deviceID)

/-- `parseSystemdState` of src/unnamed/part_000 (lines 145-163): the
variant returning `(float64, error)`; an unrecognized state is an
error, modelled as `none`. Values are small integers, modelled in ℚ. -/
def parseSystemdStateErr (state : Str) : Option ℚ :=
  let l := toLowerStr state
  if l = strToL "active" then some 1
  else if l = strToL "reloading" then some 2
  else if l = strToL "inactive" then some 3
  else if l = strToL "failed" then some 4
  else if l = strToL "activating" then some 5
  else if l = strToL "deactivating" then some 6
  else none

/-- `parseSystemdSubState` of src/unnamed/part_000 (lines 166-187). -/
def parseSystemdSubStateErr (subState : Str) : Option ℚ :=
  let l := toLowerStr subState
  if l = strToL "running" then some 1
  else if l = strToL "exited" then some 2
  else if l = strToL "failed" then some 3
  else if l = strToL "dead" then some 4
  else if l = strToL "start" then some 5
  else if l = strToL "stop" then some 6
  else if l = strToL "reload" then some 7
  else if l = strToL "auto-restart" then some 8
  else none

/-- `parseSystemdLoadState` of src/unnamed/part_000 (lines 190-203). -/
def parseSystemdLoadStateErr (loadState : Str) : Option ℚ :=
  let l := toLowerStr loadState
  if l = strToL "loaded" then some 1
  else if l = strToL "error" then some 2
  else if l = strToL "masked" then some 3
  else if l = strToL "not-found" then some 4
  else none

/-- `parseSystemdState` of src/collector/systemdservices_linux.go
(lines 143-161): the variant returning a bare `float64`; an
unrecognized state silently maps to 0. -/
def parseSystemdStateDefault (state : Str) : ℚ :=
  let l := toLowerStr state
  if l = strToL "active" then 1
  else if l = strToL "reloading" then 2
  else if l = strToL "inactive" then 3
  else if l = strToL "failed" then 4
  else if l = strToL "activating" then 5
  else if l = strToL "deactivating" then 6
  else 0

/-- `parseSystemdSubState` of src/collector/systemdservices_linux.go
(lines 163-185). -/
def parseSystemdSubStateDefault (subState : Str) : ℚ :=
  let l := toLowerStr subState
  if l = strToL "running" then 1
  else if l = strToL "exited" then 2
  else if l = strToL "failed" then 3
  else if l = strToL "dead" then 4
  else if l = strToL "start" then 5
  else if l = strToL "stop" then 6
  else if l = strToL "reload" then 7
  else if l = strToL "auto-restart" then 8
  else 0

/-- `parseSystemdLoadState` of src/collector/systemdservices_linux.go
(lines 187-201). -/
def parseSystemdLoadStateDefault (loadState : Str) : ℚ :=
  let l := toLowerStr loadState
  if l = strToL "loaded" then 1
  else if l = strToL "error" then 2
  else if l = strToL "masked" then 3
  else if l = strToL "not-found" then 4
  else 0

/-- The fields of `dbus.UnitStatus` read by the systemd collectors. -/
structure UnitStatus where
  Name : Str
  ActiveState : Str
  SubState : Str
  LoadState : Str
deriving DecidableEq

/-- One observation of a systemd-services collector. -/
inductive SMetric where
  | info (name serviceType : Str)
  | state (name : Str) (v : ℚ)
  | subState (name : Str) (v : ℚ)
  | loadState (name : Str) (v : ℚ)
deriving DecidableEq

/-- `collectServiceMetrics` of src/unnamed/part_000 (lines 90-143):
the info metric always; each numeric metric only when its parser
succeeds. `serviceType` stands for the value resolved from the D-Bus
Type property (out of scope of the claims). -/
def collectServiceMetricsErr (serviceType : Str) (u : UnitStatus) : List SMetric :=
  [SMetric.info u.Name serviceType]
  ++ (match parseSystemdStateErr u.ActiveState with
      | some v => [SMetric.state u.Name v]
      | none => [])
  ++ (match parseSystemdSubStateErr u.SubState with
      | some v => [SMetric.subState u.Name v]
      | none => [])
  ++ (match parseSystemdLoadStateErr u.LoadState with
      | some v => [SMetric.loadState u.Name v]
      | none => [])

/-- `collectServiceMetrics` of src/collector/systemdservices_linux.go
(lines 93-141): all four metrics are emitted unconditionally. -/
def collectServiceMetricsDefault (serviceType : Str) (u : UnitStatus) : List SMetric :=
  [SMetric.info u.Name serviceType,
   SMetric.state u.Name (parseSystemdStateDefault u.ActiveState),
   SMetric.subState u.Name (parseSystemdSubStateDefault u.SubState),
   SMetric.loadState u.Name (parseSystemdLoadStateDefault u.LoadState)]

/-- A single table insertion performed by one scanner iteration, used
to analyze `loadPCIIds` (each line performs at most one insertion). -/
inductive TWrite where
  | vendorW (k : Str) (v : Str)
  | deviceW (k : Str × Str) (v : Str)
  | subsysW (k : Str × Str) (v : Str)
  | classW (k : Str) (v : Str)
  | subclassW (k : Str) (v : Str)

/-- Apply one insertion to the tables. -/
def applyW (t : PCITables) : TWrite → PCITables
  | TWrite.vendorW k v => { t with pciVendors := updFn t.pciVendors k v }
  | TWrite.deviceW k v => { t with pciDevices := updFn t.pciDevices k v }
  | TWrite.subsysW k v => { t with pciSubsystems := updFn t.pciSubsystems k v }
  | TWrite.classW k v => { t with pciClasses := updFn t.pciClasses k v }
  | TWrite.subclassW k v => { t with pciSubclasses := updFn t.pciSubclasses k v }

/-- Apply an optional insertion. -/
def applyOW (t : PCITables) : Option TWrite → PCITables
  | none => t
  | some w => applyW t w

/-- Apply a list of insertions in order. -/
def applyWs (t : PCITables) (ws : List TWrite) : PCITables := ws.foldl applyW t

/-- Select the vendor-table component of an insertion. -/
def selVendor : TWrite → Option (Str × Str)
  | TWrite.vendorW k v => some (k, v)
  | _ => none

/-- Select the device-table component of an insertion. -/
def selDevice : TWrite → Option ((Str × Str) × Str)
  | TWrite.deviceW k v => some (k, v)
  | _ => none

/-- Select the subsystem-table component of an insertion. -/
def selSubsys : TWrite → Option ((Str × Str) × Str)
  | TWrite.subsysW k v => some (k, v)
  | _ => none

/-- Select the class-table component of an insertion. -/
def selClass : TWrite → Option (Str × Str)
  | TWrite.classW k v => some (k, v)
  | _ => none

/-- Select the subclass-table component of an insertion. -/
def selSubclass : TWrite → Option (Str × Str)
  | TWrite.subclassW k v => some (k, v)
  | _ => none

/-- The effect of one insertion on one table component. -/
def fieldStep {K : Type} [DecidableEq K] (sel : TWrite → Option (K × Str))
    (f : K → Option Str) (w : TWrite) : K → Option Str :=
  match sel w with
  | some kv => updFn f kv.1 kv.2
  | none => f

/-- The effect of a list of insertions on one table component. -/
def fieldApply {K : Type} [DecidableEq K] (sel : TWrite → Option (K × Str))
    (f : K → Option Str) (ws : List TWrite) : K → Option Str :=
  ws.foldl (fieldStep sel) f

/-- The value of the last insertion in `ws` that hits component key
`k`, if any. -/
def lastW {K : Type} [DecidableEq K] (sel : TWrite → Option (K × Str))
    (ws : List TWrite) (k : K) : Option Str :=
  match ws with
  | [] => none
  | w :: rest =>
      match lastW sel rest k with
      | some v => some v
      | none =>
          match sel w with
          | some kv => if k = kv.1 then some kv.2 else none
          | none => none

/-- The context transition of one scanner iteration (the table-free
projection of `processLine`; the context update never reads the
tables). -/
def ctxStep (c : LoaderCtx) (line : Str) : LoaderCtx :=
  if line = [] ∨ hasPref line (strToL "#") then c
  else if hasPref line (strToL "C") then
    match splitN2 line (strToL "  ") with
    | [p0, _] => { c with currentBaseClass := trimSpace (p0.drop 1), currentSubclass := [] }
    | _ => c
  else if hasPref line (strToL "\t") ∧ ¬ hasPref line (strToL "\t\t") then
    match splitN2 (trimPref line (strToL "\t")) (strToL "  ") with
    | [p0, _] =>
        if c.currentBaseClass ≠ [] then
          { c with currentSubclass := c.currentBaseClass ++ trimSpace p0 }
        else c
    | _ => c
  else if hasPref line (strToL "\t\t") ∧ ¬ hasPref line (strToL "\t\t\t") then c
  else if ¬ hasPref line (strToL "\t") ∧ ¬ hasPref line (strToL "C") then
    match splitN2 line (strToL "  ") with
    | [p0, _] => { c with currentVendor := trimSpace p0, currentDevice := [] }
    | _ => c
  else if hasPref line (strToL "\t") ∧ ¬ hasPref line (strToL "\t\t") then
    match splitN2 (trimPref line (strToL "\t")) (strToL "  ") with
    | [p0, _] => if c.currentVendor ≠ [] then { c with currentDevice := trimSpace p0 } else c
    | _ => c
  else c

/-- The optional insertion performed by one scanner iteration (the
table-effect projection of `processLine`; which insertion happens
depends only on the context and the line). -/
def lineWrite (c : LoaderCtx) (line : Str) : Option TWrite :=
  if line = [] ∨ hasPref line (strToL "#") then none
  else if hasPref line (strToL "C") then
    match splitN2 line (strToL "  ") with
    | [p0, p1] => some (TWrite.classW (trimSpace (p0.drop 1)) (trimSpace p1))
    | _ => none
  else if hasPref line (strToL "\t") ∧ ¬ hasPref line (strToL "\t\t") then
    match splitN2 (trimPref line (strToL "\t")) (strToL "  ") with
    | [p0, p1] =>
        if c.currentBaseClass ≠ [] then
          some (TWrite.subclassW (c.currentBaseClass ++ trimSpace p0) (trimSpace p1))
        else none
    | _ => none
  else if hasPref line (strToL "\t\t") ∧ ¬ hasPref line (strToL "\t\t\t") then none
  else if ¬ hasPref line (strToL "\t") ∧ ¬ hasPref line (strToL "C") then
    match splitN2 line (strToL "  ") with
    | [p0, p1] => some (TWrite.vendorW (trimSpace p0) (trimSpace p1))
    | _ => none
  else if hasPref line (strToL "\t") ∧ ¬ hasPref line (strToL "\t\t") then
    match splitN2 (trimPref line (strToL "\t")) (strToL "  ") with
    | [p0, p1] =>
        if c.currentVendor ≠ [] then
          some (TWrite.deviceW (c.currentVendor, trimSpace p0) (trimSpace p1))
        else none
    | _ => none
  else if hasPref line (strToL "\t\t") then
    match splitN2 (trimPref line (strToL "\t\t")) (strToL "  ") with
    | [p0, p1] =>
        if c.currentVendor ≠ [] ∧ c.currentDevice ≠ [] then
          some (TWrite.subsysW (c.currentVendor ++ strToL ":" ++ c.currentDevice, trimSpace p0) (trimSpace p1))
        else none
    | _ => none
  else none

/-- Fold of the context transition over a list of lines. -/
def ctxFold (c : LoaderCtx) (lines : List Str) : LoaderCtx := lines.foldl ctxStep c

/-- The insertions a run of the scanner performs, in order; these
depend only on the starting context and the lines, never on the
tables. -/
def writesFold (c : LoaderCtx) : List Str → List TWrite
  | [] => []
  | l :: ls => (lineWrite c l).toList ++ writesFold (ctxStep c l) ls

/-- A table fixture holding only vendor 8086 (for the case/prefix
invariance claim). -/
def t8086 : PCITables :=
  { emptyTables with
      pciVendors := updFn emptyTables.pciVendors (strToL "8086") (strToL "Intel Corporation") }

/-- A table fixture holding base class 01 and subclass 0100 (for the
class-resolution claim). -/
def tCls : PCITables :=
  { emptyTables with
      pciClasses := updFn emptyTables.pciClasses (strToL "01") (strToL "Mass storage controller"),
      pciSubclasses := updFn emptyTables.pciSubclasses (strToL "0100") (strToL "SCSI storage controller") }

/-- Pointwise equality of what `readFileContent` yields on every
attribute file of two device directories. -/
def readsEq (d1 d2 : DeviceFiles) : Prop :=
  readFileContent d1.vendor = readFileContent d2.vendor ∧
  readFileContent d1.device = readFileContent d2.device ∧
  readFileContent d1.subsystem_vendor = readFileContent d2.subsystem_vendor ∧
  readFileContent d1.subsystem_device = readFileContent d2.subsystem_device ∧
  readFileContent d1.classAttr = readFileContent d2.classAttr ∧
  readFileContent d1.revision = readFileContent d2.revision ∧
  readFileContent d1.current_link_speed = readFileContent d2.current_link_speed ∧
  readFileContent d1.current_link_width = readFileContent d2.current_link_width ∧
  readFileContent d1.max_link_speed = readFileContent d2.max_link_speed ∧
  readFileContent d1.max_link_width = readFileContent d2.max_link_width ∧
  readFileContent d1.power_state = readFileContent d2.power_state ∧
  readFileContent d1.d3cold_allowed = readFileContent d2.d3cold_allowed

/-- A device directory whose power_state file exists and contains the
text "unknown" surrounded by whitespace. -/
def devUnknownSome : DeviceFiles :=
  { vendor := some (strToL "0x8086"), device := some (strToL "0x1234"),
    subsystem_vendor := none, subsystem_device := none,
    classAttr := none, revision := none,
    current_link_speed := some (strToL "2.5 GT/s PCIe"), current_link_width := none,
    max_link_speed := none, max_link_width := none,
    power_state := some (strToL "  unknown "), d3cold_allowed := none }

/-- The same device directory with the power_state file missing. -/
def devUnknownNone : DeviceFiles :=
  { devUnknownSome with power_state := none }

/-- The recognized systemd active-state tokens, lower-cased. -/
def systemdStateNames : List Str :=
  [strToL "active", strToL "reloading", strToL "inactive",
   strToL "failed", strToL "activating", strToL "deactivating"]

/-- The lower-cased tokens accepted by the switch of
`parsePowerState` after a failed numeric parse. -/
def powerTokens : List Str :=
  [strToL "d0", strToL "0", strToL "d1", strToL "1", strToL "d2", strToL "2",
   strToL "d3hot", strToL "3", strToL "d3cold", strToL "4"]

/-- The tokens of the `parsePowerState` switch with the values they
map to. -/
def powerTokenVals : List (Str × ℚ) :=
  [(strToL "d0", 0), (strToL "0", 0), (strToL "d1", 1), (strToL "1", 1),
   (strToL "d2", 2), (strToL "2", 2), (strToL "d3hot", 3), (strToL "3", 3),
   (strToL "d3cold", 4), (strToL "4", 4)]

/-- C1: the claim says a single-tab line parsed in a vendor context
inserts the device into DeviceTable[currentVendor][hex-id]. In the
code, the subclass block (lines 308-320) ends in `continue` and
consumes every single-tab line, so the device block (lines 339-351) is
unreachable: after a vendor line followed by a well-formed single-tab
device line, the vendor is stored but DeviceTable stays empty. -/
theorem loadPCIIds_device_line_dropped :
    (loadPCIIds emptyTables
      [strToL "8086  Intel Corporation", strToL "\t1234  Fast Ethernet Adapter"]).pciVendors
        (strToL "8086") = some (strToL "Intel Corporation") ∧
    (loadPCIIds emptyTables
      [strToL "8086  Intel Corporation", strToL "\t1234  Fast Ethernet Adapter"]).pciDevices
        (strToL "8086", strToL "1234") = none := by
  exact ⟨rfl, rfl⟩

/-- C2: the claim says a double-tab line parsed in a device context
inserts into SubsystemTable["vendor:device"][hex-id]. In the code every
line with exactly two leading tabs is consumed by the
programming-interface block (lines 322-326), and `currentDevice` is
never set because the device block is unreachable, so the subsystem
block (lines 353-366) never fires for such lines: SubsystemTable stays
empty, and a two-tab line leaves context and tables unchanged in every
state. -/
theorem loadPCIIds_subsystem_line_dropped :
    (loadPCIIds emptyTables
      [strToL "8086  Intel Corporation", strToL "\t1234  Fast Ethernet Adapter",
       strToL "\t\t5678 9abc  Some Subsystem"]).pciSubsystems
        (strToL "8086:1234", strToL "5678 9abc") = none ∧
    ∀ (c : LoaderCtx) (t : PCITables),
      processLine (c, t) (strToL "\t\t5678 9abc  Some Subsystem") = (c, t) := by
  refine ⟨rfl, fun c t => rfl⟩

/-- C6: the claim says class-name resolution looks up the 4-hex-digit
base-class+subclass form in SubclassTable first, so a 6-digit class id
whose first four digits are a SubclassTable key resolves to the
subclass name. The code (line 422) looks up the whole normalized id,
which misses for a 6-digit id, and falls back to the 2-digit base
class: with SubclassTable["0100"] present, "0x010000" resolves to the
base-class name, not the subclass name. -/
theorem getPCIClassName_full_id_lookup :
    getPCIClassName tCls (strToL "0x010000") = strToL "Mass storage controller" ∧
    tCls.pciSubclasses (strToL "0100") = some (strToL "SCSI storage controller") ∧
    strToL "Mass storage controller" ≠ strToL "SCSI storage controller" := by
  refine ⟨rfl, rfl, by decide⟩

/-- C3 counterexample: the claim says subsystem-name resolution
lowercases all four ids before lookup and on a miss returns the
lowercased, 0x-stripped subsystem device id. The code only strips the
prefix: on a miss with input "0x9ABC" it returns "9ABC", not "9abc". -/
theorem getPCISubsystemName_no_lowercase_cex :
    getPCISubsystemName emptyTables (strToL "0x8086") (strToL "0x1234")
      (strToL "0x5678") (strToL "0x9ABC") = strToL "9ABC" ∧
    strToL "9ABC" ≠ toLowerStr (strToL "9ABC") := by
  refine ⟨rfl, by decide⟩

/-- C4 counterexample: with vendor 8086 present in the table, "8086"
and "0x8086" resolve to the vendor name but "0X8086" does not
(TrimPrefix is case-sensitive, so the prefix survives lower-casing and
the lookup misses): the three spellings do not all yield one result. -/
theorem getPCIVendorName_0X_cex :
    getPCIVendorName t8086 (strToL "8086") = strToL "Intel Corporation" ∧
    getPCIVendorName t8086 (strToL "0x8086") = strToL "Intel Corporation" ∧
    getPCIVendorName t8086 (strToL "0X8086") = strToL "0x8086" ∧
    getPCIVendorName t8086 (strToL "0X8086") ≠ getPCIVendorName t8086 (strToL "8086") := by
  refine ⟨rfl, rfl, rfl, by decide⟩

/-- C5 counterexample: the claim says the power-state normalizer
succeeds exactly on the trimmed strings "0".."4" and the case-
insensitive tokens d0, d1, d2, d3hot, d3cold. The code tries
`strconv.ParseFloat` first, which also accepts "5": the parser
succeeds on an input outside the claimed set. -/
theorem parsePowerState_five_cex :
    parsePowerState (strToL "5") = some (GoFloat.finite 5) ∧
    toLowerStr (trimSpace (strToL "5")) ∉ powerTokens := by
  refine ⟨by decide, by decide⟩

/-- A string starts with itself followed by anything. -/
theorem hasPref_append (p s : Str) : hasPref (p ++ s) p = true := by
  induction p with
  | nil => simp [hasPref]
  | cons a p ih => simp [hasPref, ih]

/-- Stripping a just-prepended prefix recovers the original string. -/
theorem trimPref_append (p s : Str) : trimPref (p ++ s) p = s := by
  simp [trimPref, hasPref_append, List.drop_left]

/-- Stripping an absent prefix is the identity. -/
theorem trimPref_of_no_pref (s p : Str) (h : hasPref s p = false) : trimPref s p = s := by
  simp [trimPref, h]

/-- C3 (amended): subsystem-name resolution strips a "0x" prefix from
each of the four ids before the lookup, but performs no lower-casing,
and on a miss returns the stripped (case-preserved) subsystem device
id. -/
theorem getPCISubsystemName_strip_spec :
    ∀ (t : PCITables) (v d sv sd : Str),
      (hasPref v (strToL "0x") = false → hasPref d (strToL "0x") = false →
        hasPref sv (strToL "0x") = false → hasPref sd (strToL "0x") = false →
        getPCISubsystemName t (strToL "0x" ++ v) (strToL "0x" ++ d)
          (strToL "0x" ++ sv) (strToL "0x" ++ sd) = getPCISubsystemName t v d sv sd) ∧
      (t.pciSubsystems
          (trimPref v (strToL "0x") ++ strToL ":" ++ trimPref d (strToL "0x"),
           trimPref sv (strToL "0x") ++ strToL ":" ++ trimPref sd (strToL "0x")) = none →
        getPCISubsystemName t v d sv sd = trimPref sd (strToL "0x")) := by
  intro t v d sv sd
  constructor
  · intro h1 h2 h3 h4
    simp only [getPCISubsystemName, trimPref_append,
      trimPref_of_no_pref v _ h1, trimPref_of_no_pref d _ h2,
      trimPref_of_no_pref sv _ h3, trimPref_of_no_pref sd _ h4]
  · intro hm
    simp only [getPCISubsystemName]
    rw [hm]

/-- Witness for the amended C3 statement at concrete ids on the empty
tables. -/
theorem getPCISubsystemName_strip_spec_witness :
    getPCISubsystemName emptyTables (strToL "0x8086") (strToL "0x1234")
        (strToL "0x5678") (strToL "0x9abc")
      = getPCISubsystemName emptyTables (strToL "8086") (strToL "1234")
        (strToL "5678") (strToL "9abc") ∧
    getPCISubsystemName emptyTables (strToL "8086") (strToL "1234")
        (strToL "5678") (strToL "9abc") = trimPref (strToL "9abc") (strToL "0x") :=
  ⟨(getPCISubsystemName_strip_spec emptyTables (strToL "8086") (strToL "1234")
      (strToL "5678") (strToL "9abc")).1 (by decide) (by decide) (by decide) (by decide),
   (getPCISubsystemName_strip_spec emptyTables (strToL "8086") (strToL "1234")
      (strToL "5678") (strToL "9abc")).2 (by decide)⟩

/-- C4 (amended): for a lower-case vendor id v without a "0x" prefix
that is in the table (and whose "0x"-prefixed spelling is not a table
key), "v" and "0x"+v both resolve to the vendor name, while "0X"+v is
not stripped (TrimPrefix is case-sensitive), only lower-cased, and so
falls back to the raw string "0x"+v. -/
theorem getPCIVendorName_prefix_case :
    ∀ (t : PCITables) (v nm : Str),
      toLowerStr v = v → hasPref v (strToL "0x") = false →
      t.pciVendors v = some nm → t.pciVendors (strToL "0x" ++ v) = none →
      getPCIVendorName t v = nm ∧
      getPCIVendorName t (strToL "0x" ++ v) = nm ∧
      getPCIVendorName t (strToL "0X" ++ v) = strToL "0x" ++ v := by
  intro t v nm hlow hpre hin hout
  have h0X : toLowerStr (strToL "0X" ++ v) = strToL "0x" ++ v := by
    show List.map goToLower (strToL "0X" ++ v) = _
    rw [List.map_append]
    show strToL "0x" ++ toLowerStr v = _
    rw [hlow]
  have h0Xpre : hasPref (strToL "0X" ++ v) (strToL "0x") = false := rfl
  refine ⟨?_, ?_, ?_⟩
  · simp only [getPCIVendorName, trimPref_of_no_pref v _ hpre, hlow, hin]
  · simp only [getPCIVendorName, trimPref_append, hlow, hin]
  · simp only [getPCIVendorName, trimPref_of_no_pref _ _ h0Xpre, h0X, hout]

/-- Witness for the amended C4 statement on the one-vendor table. -/
theorem getPCIVendorName_prefix_case_witness :
    getPCIVendorName t8086 (strToL "8086") = strToL "Intel Corporation" ∧
    getPCIVendorName t8086 (strToL "0x" ++ strToL "8086") = strToL "Intel Corporation" ∧
    getPCIVendorName t8086 (strToL "0X" ++ strToL "8086") = strToL "0x" ++ strToL "8086" :=
  getPCIVendorName_prefix_case t8086 (strToL "8086") (strToL "Intel Corporation")
    (by decide) (by decide) (by decide) (by decide)

/-- C5 (amended): the power-state normalizer succeeds exactly when the
trimmed input parses under `strconv.ParseFloat` (any numeric value,
not only "0".."4") or its lower-cased form is one of the switch tokens
d0,0,d1,1,d2,2,d3hot,3,d3cold,4; a successful numeric parse returns
the parsed value, a token maps to its table value, and anything else
(e.g. "garbage") fails with an error. -/
theorem parsePowerState_success_spec :
    (∀ s : Str,
      ((parsePowerState s).isSome = true ↔
        ((goParseFloat (trimSpace s)).isSome = true ∨
          toLowerStr (trimSpace s) ∈ powerTokens)) ∧
      (∀ g, goParseFloat (trimSpace s) = some g → parsePowerState s = some g) ∧
      (goParseFloat (trimSpace s) = none →
        ∀ kv, kv ∈ powerTokenVals → toLowerStr (trimSpace s) = kv.1 →
          parsePowerState s = some (GoFloat.finite kv.2))) ∧
    parsePowerState (strToL "D3cold") = some (GoFloat.finite 4) ∧
    parsePowerState (strToL "2") = some (GoFloat.finite 2) ∧
    parsePowerState (strToL "garbage") = none := by
  refine ⟨?_, by decide, by decide, by decide⟩
  intro s
  cases h : goParseFloat (trimSpace s) with
  | some g =>
      refine ⟨?_, ?_, ?_⟩
      · simp [parsePowerState, h]
      · intro g' hg'
        cases hg'
        simp [parsePowerState, h]
      · intro hn
        cases hn
  | none =>
      refine ⟨?_, ?_, ?_⟩
      · simp only [parsePowerState, h]
        constructor
        · intro hs
          right
          split_ifs at hs with h1 h2 h3 h4 h5
          · rcases h1 with h1 | h1 <;> rw [h1] <;> decide
          · rcases h2 with h2 | h2 <;> rw [h2] <;> decide
          · rcases h3 with h3 | h3 <;> rw [h3] <;> decide
          · rcases h4 with h4 | h4 <;> rw [h4] <;> decide
          · rcases h5 with h5 | h5 <;> rw [h5] <;> decide
          · simp at hs
        · intro hmem
          rcases hmem with hf | hmem
          · simp [h] at hf
          · simp only [powerTokens, List.mem_cons, List.not_mem_nil, or_false] at hmem
            rcases hmem with h1 | h1 | h1 | h1 | h1 | h1 | h1 | h1 | h1 | h1 <;>
              rw [h1] <;> decide
      · intro g' hg'
        exact Option.noConfusion hg'
      · intro _ kv hkv hl
        simp only [parsePowerState, h]
        fin_cases hkv <;> rw [hl] <;> decide

/-- C5 witness: the amended characterization applied at "D3cold" (via
the token table) and at "5" (via the numeric-parse disjunct). -/
theorem parsePowerState_success_spec_witness :
    parsePowerState (strToL "D3cold") = some (GoFloat.finite 4) ∧
    (parsePowerState (strToL "5")).isSome = true :=
  ⟨(parsePowerState_success_spec.1 (strToL "D3cold")).2.2 (by decide)
      (strToL "d3cold", 4) (by decide) (by decide),
   ((parsePowerState_success_spec.1 (strToL "5")).1).mpr (Or.inl (by decide))⟩

/-- C8: the two systemd service-state parser variants agree (values
1..6) on every recognized state, case-insensitively; on every other
state the src/unnamed/part_000 variant fails (and its collector omits
the state observation) while the src/collector/systemdservices_linux.go
variant returns 0 (and its collector emits the observation
unconditionally). -/
theorem systemd_state_variants_spec :
    (∀ s : Str,
      ((parseSystemdStateErr s).isSome = true ↔ toLowerStr s ∈ systemdStateNames) ∧
      (∀ v, parseSystemdStateErr s = some v →
        parseSystemdStateDefault s = v ∧ 1 ≤ v ∧ v ≤ 6) ∧
      (parseSystemdStateErr s = none → parseSystemdStateDefault s = 0)) ∧
    (∀ (ty : Str) (u : UnitStatus),
      SMetric.state u.Name (parseSystemdStateDefault u.ActiveState)
        ∈ collectServiceMetricsDefault ty u ∧
      ((∃ v, SMetric.state u.Name v ∈ collectServiceMetricsErr ty u) ↔
        (parseSystemdStateErr u.ActiveState).isSome = true)) := by
  constructor
  · intro s
    refine ⟨?_, ?_, ?_⟩
    · simp only [parseSystemdStateErr]
      split_ifs with h1 h2 h3 h4 h5 h6
      · rw [h1]; decide
      · rw [h2]; decide
      · rw [h3]; decide
      · rw [h4]; decide
      · rw [h5]; decide
      · rw [h6]; decide
      · constructor
        · intro hs; simp at hs
        · intro hmem
          simp only [systemdStateNames, List.mem_cons, List.not_mem_nil, or_false] at hmem
          rcases hmem with h | h | h | h | h | h
          exacts [absurd h h1, absurd h h2, absurd h h3,
                  absurd h h4, absurd h h5, absurd h h6]
    · simp only [parseSystemdStateErr]
      split_ifs with h1 h2 h3 h4 h5 h6
      · intro v hv; cases hv
        refine ⟨?_, by decide, by decide⟩
        simp only [parseSystemdStateDefault, h1]; decide
      · intro v hv; cases hv
        refine ⟨?_, by decide, by decide⟩
        simp only [parseSystemdStateDefault, h2]; decide
      · intro v hv; cases hv
        refine ⟨?_, by decide, by decide⟩
        simp only [parseSystemdStateDefault, h3]; decide
      · intro v hv; cases hv
        refine ⟨?_, by decide, by decide⟩
        simp only [parseSystemdStateDefault, h4]; decide
      · intro v hv; cases hv
        refine ⟨?_, by decide, by decide⟩
        simp only [parseSystemdStateDefault, h5]; decide
      · intro v hv; cases hv
        refine ⟨?_, by decide, by decide⟩
        simp only [parseSystemdStateDefault, h6]; decide
      · intro v hv; exact hv.elim
    · simp only [parseSystemdStateErr]
      split_ifs with h1 h2 h3 h4 h5 h6
      · intro hn; exact hn.elim
      · intro hn; exact hn.elim
      · intro hn; exact hn.elim
      · intro hn; exact hn.elim
      · intro hn; exact hn.elim
      · intro hn; exact hn.elim
      · intro _
        simp only [parseSystemdStateDefault, if_neg h1, if_neg h2, if_neg h3,
          if_neg h4, if_neg h5, if_neg h6]
  · intro ty u
    constructor
    · simp [collectServiceMetricsDefault]
    · cases h1 : parseSystemdStateErr u.ActiveState <;>
        cases h2 : parseSystemdSubStateErr u.SubState <;>
          cases h3 : parseSystemdLoadStateErr u.LoadState <;>
            simp [collectServiceMetricsErr, h1, h2, h3]

/-- C8 witness: the divergence at a recognized state ("Active") and an
unrecognized one ("bogus"). -/
theorem systemd_state_variants_spec_witness :
    parseSystemdStateDefault (strToL "Active") = 1 ∧
    parseSystemdStateDefault (strToL "bogus") = 0 :=
  ⟨((systemd_state_variants_spec.1 (strToL "Active")).2.1 1 (by decide)).1,
   (systemd_state_variants_spec.1 (strToL "bogus")).2.2 (by decide)⟩

/-- A metric that is no `mk v` is not produced by that numeric
block. -/
theorem not_mem_emitNum {raw : Str} {p : Str → Option GoFloat}
    {mk : GoFloat → Metric} {m : Metric} (h : ∀ v, m ≠ mk v) :
    m ∉ emitNum raw p mk := by
  intro hm
  unfold emitNum at hm
  split_ifs at hm
  · cases hp : p raw with
    | some w => rw [hp] at hm; simp at hm; exact h w hm
    | none => rw [hp] at hm; simp at hm
  · simp at hm

/-- A numeric block emits some `mk v` exactly when the raw value is
not the sentinel and the normalizer succeeds. -/
theorem emitNum_mem_iff (raw : Str) (p : Str → Option GoFloat) (mk : GoFloat → Metric) :
    (∃ v, mk v ∈ emitNum raw p mk) ↔
      (raw ≠ strToL "unknown" ∧ (p raw).isSome = true) := by
  unfold emitNum
  split_ifs with hr
  · cases hp : p raw with
    | some w =>
        simp only [hp, List.mem_singleton]
        constructor
        · intro _; exact ⟨hr, rfl⟩
        · intro _; exact ⟨w, rfl⟩
    | none => simp [hp]
  · simp only [List.not_mem_nil, exists_false, false_iff, not_and]
    intro hne
    exact absurd hne hr

/-- The currentSpeed observation appears in the per-device output exactly
when its raw attribute is not the sentinel and its normalizer
succeeds. -/
theorem mem_collect_currentSpeed (t : PCITables) (id : Str) (d : DeviceFiles) :
    (∃ v, Metric.currentSpeed id v ∈ collectDeviceMetrics t id d) ↔
      (readFileContent d.current_link_speed ≠ strToL "unknown" ∧
        (parseSpeed (readFileContent d.current_link_speed)).isSome = true) := by
  rw [← emitNum_mem_iff (readFileContent d.current_link_speed) parseSpeed (Metric.currentSpeed id)]
  constructor
  · rintro ⟨v, hv⟩
    simp only [collectDeviceMetrics, List.mem_append, List.mem_singleton] at hv
    rcases hv with ((((((hv | hv) | hv) | hv) | hv) | hv) | hv)
    · exact Metric.noConfusion hv
    · exact ⟨v, hv⟩
    · exact absurd hv (not_mem_emitNum fun w h => Metric.noConfusion h)
    · exact absurd hv (not_mem_emitNum fun w h => Metric.noConfusion h)
    · exact absurd hv (not_mem_emitNum fun w h => Metric.noConfusion h)
    · exact absurd hv (not_mem_emitNum fun w h => Metric.noConfusion h)
    · exact absurd hv (not_mem_emitNum fun w h => Metric.noConfusion h)
  · rintro ⟨v, hv⟩
    refine ⟨v, ?_⟩
    simp only [collectDeviceMetrics, List.mem_append]
    tauto

/-- The currentWidth observation appears in the per-device output exactly
when its raw attribute is not the sentinel and its normalizer
succeeds. -/
theorem mem_collect_currentWidth (t : PCITables) (id : Str) (d : DeviceFiles) :
    (∃ v, Metric.currentWidth id v ∈ collectDeviceMetrics t id d) ↔
      (readFileContent d.current_link_width ≠ strToL "unknown" ∧
        (parseWidth (readFileContent d.current_link_width)).isSome = true) := by
  rw [← emitNum_mem_iff (readFileContent d.current_link_width) parseWidth (Metric.currentWidth id)]
  constructor
  · rintro ⟨v, hv⟩
    simp only [collectDeviceMetrics, List.mem_append, List.mem_singleton] at hv
    rcases hv with ((((((hv | hv) | hv) | hv) | hv) | hv) | hv)
    · exact Metric.noConfusion hv
    · exact absurd hv (not_mem_emitNum fun w h => Metric.noConfusion h)
    · exact ⟨v, hv⟩
    · exact absurd hv (not_mem_emitNum fun w h => Metric.noConfusion h)
    · exact absurd hv (not_mem_emitNum fun w h => Metric.noConfusion h)
    · exact absurd hv (not_mem_emitNum fun w h => Metric.noConfusion h)
    · exact absurd hv (not_mem_emitNum fun w h => Metric.noConfusion h)
  · rintro ⟨v, hv⟩
    refine ⟨v, ?_⟩
    simp only [collectDeviceMetrics, List.mem_append]
    tauto

/-- The maxSpeed observation appears in the per-device output exactly
when its raw attribute is not the sentinel and its normalizer
succeeds. -/
theorem mem_collect_maxSpeed (t : PCITables) (id : Str) (d : DeviceFiles) :
    (∃ v, Metric.maxSpeed id v ∈ collectDeviceMetrics t id d) ↔
      (readFileContent d.max_link_speed ≠ strToL "unknown" ∧
        (parseSpeed (readFileContent d.max_link_speed)).isSome = true) := by
  rw [← emitNum_mem_iff (readFileContent d.max_link_speed) parseSpeed (Metric.maxSpeed id)]
  constructor
  · rintro ⟨v, hv⟩
    simp only [collectDeviceMetrics, List.mem_append, List.mem_singleton] at hv
    rcases hv with ((((((hv | hv) | hv) | hv) | hv) | hv) | hv)
    · exact Metric.noConfusion hv
    · exact absurd hv (not_mem_emitNum fun w h => Metric.noConfusion h)
    · exact absurd hv (not_mem_emitNum fun w h => Metric.noConfusion h)
    · exact ⟨v, hv⟩
    · exact absurd hv (not_mem_emitNum fun w h => Metric.noConfusion h)
    · exact absurd hv (not_mem_emitNum fun w h => Metric.noConfusion h)
    · exact absurd hv (not_mem_emitNum fun w h => Metric.noConfusion h)
  · rintro ⟨v, hv⟩
    refine ⟨v, ?_⟩
    simp only [collectDeviceMetrics, List.mem_append]
    tauto

/-- The maxWidth observation appears in the per-device output exactly
when its raw attribute is not the sentinel and its normalizer
succeeds. -/
theorem mem_collect_maxWidth (t : PCITables) (id : Str) (d : DeviceFiles) :
    (∃ v, Metric.maxWidth id v ∈ collectDeviceMetrics t id d) ↔
      (readFileContent d.max_link_width ≠ strToL "unknown" ∧
        (parseWidth (readFileContent d.max_link_width)).isSome = true) := by
  rw [← emitNum_mem_iff (readFileContent d.max_link_width) parseWidth (Metric.maxWidth id)]
  constructor
  · rintro ⟨v, hv⟩
    simp only [collectDeviceMetrics, List.mem_append, List.mem_singleton] at hv
    rcases hv with ((((((hv | hv) | hv) | hv) | hv) | hv) | hv)
    · exact Metric.noConfusion hv
    · exact absurd hv (not_mem_emitNum fun w h => Metric.noConfusion h)
    · exact absurd hv (not_mem_emitNum fun w h => Metric.noConfusion h)
    · exact absurd hv (not_mem_emitNum fun w h => Metric.noConfusion h)
    · exact ⟨v, hv⟩
    · exact absurd hv (not_mem_emitNum fun w h => Metric.noConfusion h)
    · exact absurd hv (not_mem_emitNum fun w h => Metric.noConfusion h)
  · rintro ⟨v, hv⟩
    refine ⟨v, ?_⟩
    simp only [collectDeviceMetrics, List.mem_append]
    tauto

/-- The powerState observation appears in the per-device output exactly
when its raw attribute is not the sentinel and its normalizer
succeeds. -/
theorem mem_collect_powerState (t : PCITables) (id : Str) (d : DeviceFiles) :
    (∃ v, Metric.powerState id v ∈ collectDeviceMetrics t id d) ↔
      (readFileContent d.power_state ≠ strToL "unknown" ∧
        (parsePowerState (readFileContent d.power_state)).isSome = true) := by
  rw [← emitNum_mem_iff (readFileContent d.power_state) parsePowerState (Metric.powerState id)]
  constructor
  · rintro ⟨v, hv⟩
    simp only [collectDeviceMetrics, List.mem_append, List.mem_singleton] at hv
    rcases hv with ((((((hv | hv) | hv) | hv) | hv) | hv) | hv)
    · exact Metric.noConfusion hv
    · exact absurd hv (not_mem_emitNum fun w h => Metric.noConfusion h)
    · exact absurd hv (not_mem_emitNum fun w h => Metric.noConfusion h)
    · exact absurd hv (not_mem_emitNum fun w h => Metric.noConfusion h)
    · exact absurd hv (not_mem_emitNum fun w h => Metric.noConfusion h)
    · exact ⟨v, hv⟩
    · exact absurd hv (not_mem_emitNum fun w h => Metric.noConfusion h)
  · rintro ⟨v, hv⟩
    refine ⟨v, ?_⟩
    simp only [collectDeviceMetrics, List.mem_append]
    tauto

/-- The d3coldAllowed observation appears in the per-device output exactly
when its raw attribute is not the sentinel and its normalizer
succeeds. -/
theorem mem_collect_d3coldAllowed (t : PCITables) (id : Str) (d : DeviceFiles) :
    (∃ v, Metric.d3coldAllowed id v ∈ collectDeviceMetrics t id d) ↔
      (readFileContent d.d3cold_allowed ≠ strToL "unknown" ∧
        (goParseFloat (readFileContent d.d3cold_allowed)).isSome = true) := by
  rw [← emitNum_mem_iff (readFileContent d.d3cold_allowed) goParseFloat (Metric.d3coldAllowed id)]
  constructor
  · rintro ⟨v, hv⟩
    simp only [collectDeviceMetrics, List.mem_append, List.mem_singleton] at hv
    rcases hv with ((((((hv | hv) | hv) | hv) | hv) | hv) | hv)
    · exact Metric.noConfusion hv
    · exact absurd hv (not_mem_emitNum fun w h => Metric.noConfusion h)
    · exact absurd hv (not_mem_emitNum fun w h => Metric.noConfusion h)
    · exact absurd hv (not_mem_emitNum fun w h => Metric.noConfusion h)
    · exact absurd hv (not_mem_emitNum fun w h => Metric.noConfusion h)
    · exact absurd hv (not_mem_emitNum fun w h => Metric.noConfusion h)
    · exact ⟨v, hv⟩
  · rintro ⟨v, hv⟩
    refine ⟨v, ?_⟩
    simp only [collectDeviceMetrics, List.mem_append]
    tauto

/-- C7: per device, the static info observation (constant value 1,
carrying identity and resolved names) is emitted unconditionally, and
each of the six numeric observations is emitted exactly when its raw
attribute value is not the sentinel "unknown" and its normalizer
succeeds; a sentinel or a normalization failure omits only that one
observation. -/
theorem collectDeviceMetrics_emission_policy :
    ∀ (t : PCITables) (id : Str) (d : DeviceFiles),
      Metric.info (infoLabels t id d) ∈ collectDeviceMetrics t id d ∧
      ((∃ v, Metric.currentSpeed id v ∈ collectDeviceMetrics t id d) ↔
        (readFileContent d.current_link_speed ≠ strToL "unknown" ∧
          (parseSpeed (readFileContent d.current_link_speed)).isSome = true)) ∧
      ((∃ v, Metric.currentWidth id v ∈ collectDeviceMetrics t id d) ↔
        (readFileContent d.current_link_width ≠ strToL "unknown" ∧
          (parseWidth (readFileContent d.current_link_width)).isSome = true)) ∧
      ((∃ v, Metric.maxSpeed id v ∈ collectDeviceMetrics t id d) ↔
        (readFileContent d.max_link_speed ≠ strToL "unknown" ∧
          (parseSpeed (readFileContent d.max_link_speed)).isSome = true)) ∧
      ((∃ v, Metric.maxWidth id v ∈ collectDeviceMetrics t id d) ↔
        (readFileContent d.max_link_width ≠ strToL "unknown" ∧
          (parseWidth (readFileContent d.max_link_width)).isSome = true)) ∧
      ((∃ v, Metric.powerState id v ∈ collectDeviceMetrics t id d) ↔
        (readFileContent d.power_state ≠ strToL "unknown" ∧
          (parsePowerState (readFileContent d.power_state)).isSome = true)) ∧
      ((∃ v, Metric.d3coldAllowed id v ∈ collectDeviceMetrics t id d) ↔
        (readFileContent d.d3cold_allowed ≠ strToL "unknown" ∧
          (goParseFloat (readFileContent d.d3cold_allowed)).isSome = true)) :=
  fun t id d =>
    ⟨by simp [collectDeviceMetrics],
     mem_collect_currentSpeed t id d, mem_collect_currentWidth t id d,
     mem_collect_maxSpeed t id d, mem_collect_maxWidth t id d,
     mem_collect_powerState t id d, mem_collect_d3coldAllowed t id d⟩

/-- C10: a readable attribute file whose content trims to "unknown" is
indistinguishable at the collector interface from a missing or
unreadable file: `readFileContent` yields the sentinel either way, and
the per-device output depends on the attribute files only through
`readFileContent`, so the two device directories produce identical
observations (the sentinel also flows into name resolution as a raw
id). -/
theorem unknown_content_equals_missing :
    (∀ c : Str, trimSpace c = strToL "unknown" →
      readFileContent (some c) = readFileContent none) ∧
    (∀ (t : PCITables) (id : Str) (d1 d2 : DeviceFiles), readsEq d1 d2 →
      collectDeviceMetrics t id d1 = collectDeviceMetrics t id d2) := by
  constructor
  · intro c hc
    simp [readFileContent, hc]
  · intro t id d1 d2 h
    obtain ⟨h1, h2, h3, h4, h5, h6, h7, h8, h9, h10, h11, h12⟩ := h
    simp only [collectDeviceMetrics, infoLabels]
    rw [h1, h2, h3, h4, h5, h6, h7, h8, h9, h10, h11, h12]

/-- C10 witness: a device whose power_state file reads "  unknown "
produces exactly the observations of the same device with the file
missing. -/
theorem unknown_content_equals_missing_witness :
    readFileContent (some (strToL "  unknown ")) = readFileContent none ∧
    collectDeviceMetrics emptyTables (strToL "0000:00:00.0") devUnknownSome
      = collectDeviceMetrics emptyTables (strToL "0000:00:00.0") devUnknownNone :=
  ⟨unknown_content_equals_missing.1 (strToL "  unknown ") (by decide),
   unknown_content_equals_missing.2 emptyTables (strToL "0000:00:00.0")
     devUnknownSome devUnknownNone
     ⟨rfl, rfl, rfl, rfl, rfl, rfl, rfl, rfl, rfl, rfl, rfl, rfl⟩⟩

/-- Projection of one insertion onto the vendor table. -/
theorem applyW_pciVendors (t : PCITables) (w : TWrite) :
    (applyW t w).pciVendors = fieldStep selVendor t.pciVendors w := by
  cases w <;> rfl

/-- Projection of one insertion onto the device table. -/
theorem applyW_pciDevices (t : PCITables) (w : TWrite) :
    (applyW t w).pciDevices = fieldStep selDevice t.pciDevices w := by
  cases w <;> rfl

/-- Projection of one insertion onto the subsystem table. -/
theorem applyW_pciSubsystems (t : PCITables) (w : TWrite) :
    (applyW t w).pciSubsystems = fieldStep selSubsys t.pciSubsystems w := by
  cases w <;> rfl

/-- Projection of one insertion onto the class table. -/
theorem applyW_pciClasses (t : PCITables) (w : TWrite) :
    (applyW t w).pciClasses = fieldStep selClass t.pciClasses w := by
  cases w <;> rfl

/-- Projection of one insertion onto the subclass table. -/
theorem applyW_pciSubclasses (t : PCITables) (w : TWrite) :
    (applyW t w).pciSubclasses = fieldStep selSubclass t.pciSubclasses w := by
  cases w <;> rfl

/-- A projection that commutes with single insertions commutes with
insertion lists. -/
theorem fieldApply_applyWs {K : Type} [DecidableEq K]
    (sel : TWrite → Option (K × Str)) (proj : PCITables → K → Option Str)
    (hp : ∀ t w, proj (applyW t w) = fieldStep sel (proj t) w)
    (t : PCITables) (ws : List TWrite) :
    proj (applyWs t ws) = fieldApply sel (proj t) ws := by
  induction ws generalizing t with
  | nil => rfl
  | cons w rest ih =>
      show proj (applyWs (applyW t w) rest) = _
      rw [ih, hp]
      rfl

/-- An insertion list takes a component key to the value of its last
insertion hitting that key, or leaves it unchanged. -/
theorem fieldApply_eq_lastW {K : Type} [DecidableEq K]
    (sel : TWrite → Option (K × Str)) (f : K → Option Str)
    (ws : List TWrite) (k : K) :
    fieldApply sel f ws k =
      (match lastW sel ws k with
       | some v => some v
       | none => f k) := by
  induction ws generalizing f with
  | nil => rfl
  | cons w rest ih =>
      show fieldApply sel (fieldStep sel f w) rest k = _
      rw [ih]
      cases hrest : lastW sel rest k with
      | some v => simp [lastW, hrest]
      | none =>
          cases hw : sel w with
          | some kv =>
              by_cases hk : k = kv.1
              · subst hk
                simp [lastW, hrest, hw, fieldStep, updFn]
              · simp [lastW, hrest, hw, fieldStep, updFn, hk]
          | none => simp [lastW, hrest, hw, fieldStep]

/-- Replaying the same insertion list is a no-op on each component. -/
theorem fieldApply_idem {K : Type} [DecidableEq K]
    (sel : TWrite → Option (K × Str)) (f : K → Option Str) (ws : List TWrite) :
    fieldApply sel (fieldApply sel f ws) ws = fieldApply sel f ws := by
  funext k
  rw [fieldApply_eq_lastW, fieldApply_eq_lastW]
  cases h : lastW sel ws k with
  | some v => simp [h]
  | none => simp [h, fieldApply_eq_lastW]

/-- Field-wise extensionality for the table bundle. -/
theorem tablesExt (a b : PCITables)
    (h1 : a.pciVendors = b.pciVendors) (h2 : a.pciDevices = b.pciDevices)
    (h3 : a.pciSubsystems = b.pciSubsystems) (h4 : a.pciClasses = b.pciClasses)
    (h5 : a.pciSubclasses = b.pciSubclasses) : a = b := by
  cases a
  cases b
  simp only at h1 h2 h3 h4 h5
  rw [h1, h2, h3, h4, h5]

/-- Replaying the same insertion list is a no-op on the tables. -/
theorem applyWs_idem (t : PCITables) (ws : List TWrite) :
    applyWs (applyWs t ws) ws = applyWs t ws := by
  apply tablesExt
  · simp only [fieldApply_applyWs selVendor PCITables.pciVendors applyW_pciVendors]
    exact fieldApply_idem _ _ _
  · simp only [fieldApply_applyWs selDevice PCITables.pciDevices applyW_pciDevices]
    exact fieldApply_idem _ _ _
  · simp only [fieldApply_applyWs selSubsys PCITables.pciSubsystems applyW_pciSubsystems]
    exact fieldApply_idem _ _ _
  · simp only [fieldApply_applyWs selClass PCITables.pciClasses applyW_pciClasses]
    exact fieldApply_idem _ _ _
  · simp only [fieldApply_applyWs selSubclass PCITables.pciSubclasses applyW_pciSubclasses]
    exact fieldApply_idem _ _ _

/-- One scanner iteration factors into the table-independent context
transition and the optional insertion it determines. -/
theorem processLine_eq (c : LoaderCtx) (t : PCITables) (line : Str) :
    processLine (c, t) line = (ctxStep c line, applyOW t (lineWrite c line)) := by
  simp only [processLine, ctxStep, lineWrite]
  split_ifs with hA hB hC hD hE hF hG <;>
    first
      | rfl
      | (repeat' split <;> simp [applyOW, applyW])

/-- A scanner run from context `c` equals the context fold paired with
the replay of the insertions it determines (which depend only on the
lines and the starting context, never on the tables). -/
theorem foldl_processLine_eq (lines : List Str) (c : LoaderCtx) (t : PCITables) :
    lines.foldl processLine (c, t) = (ctxFold c lines, applyWs t (writesFold c lines)) := by
  induction lines generalizing c t with
  | nil => rfl
  | cons l ls ih =>
      show List.foldl processLine (processLine (c, t) l) ls = _
      rw [processLine_eq, ih]
      cases ha : lineWrite c l with
      | none => simp [ctxFold, writesFold, ha, applyOW, applyWs]
      | some w => simp [ctxFold, writesFold, ha, applyOW, applyWs]

/-- C9: running the loader a second time over the same lines, starting
from the tables the first run produced, returns those tables
unchanged. -/
theorem loadPCIIds_idempotent :
    ∀ (t : PCITables) (lines : List Str),
      loadPCIIds (loadPCIIds t lines) lines = loadPCIIds t lines := by
  intro t lines
  simp only [loadPCIIds, foldl_processLine_eq]
  exact applyWs_idem t (writesFold initCtx lines)
